import Mathlib

/-!
Verification of the multi-transport session layer and universal retrieval
facade of the clickup-mcp-server repository.

The TypeScript source is shallowly embedded in Lean:
* JavaScript strings are modelled as Lean `String` / `List Char` (the inputs
  relevant here are ASCII, so UTF-16 code-unit indexing and Unicode-aware
  `toLowerCase` coincide with per-char operations);
* `Array.prototype.sort` (stable since ES2019) with a consistent comparator
  is modelled by a structural stable insertion sort `stableSort`;
* the ClickUp backend (`taskService`) is an external collaborator and is
  passed in as an explicit `Except`/function argument: a thrown exception is
  `Except.error`, a successful response `Except.ok`;
* the name-matching engine `isNameMatch` lives outside the studied sources
  and is passed as an abstract function argument `matcher`.
-/

namespace ClickupMcp

/-! ## Character-list string primitives

Lean's built-in `String.trim`/`String.split`/`String.toLower` are implemented
with byte positions and do not reduce in the kernel, so the JavaScript string
operations used by the server are modelled structurally on `List Char`.
-/

/-- Model of JS `String.prototype.toLowerCase` restricted to per-char
(ASCII-adequate) lowering. -/
def lowerCL (l : List Char) : List Char := l.map Char.toLower

/-- Model of JS `String.prototype.trim`: drop leading and trailing
whitespace. -/
def trimCL (l : List Char) : List Char :=
  ((l.dropWhile Char.isWhitespace).reverse.dropWhile Char.isWhitespace).reverse

/-- Model of JS `String.prototype.split` on a single-character class: cut the
list at every character satisfying `p`, keeping empty pieces (the server
always filters empties afterwards, which also makes this coincide with
splitting on `[..]+` runs). -/
def splitOnP (p : Char → Bool) : List Char → List (List Char)
  | [] => [[]]
  | c :: rest =>
    if p c then [] :: splitOnP p rest
    else (c :: (splitOnP p rest).headD []) :: (splitOnP p rest).tail

/-- Decide whether `pre` is a prefix of `l` (by char equality). -/
def hasPrefixCL : List Char → List Char → Bool
  | [], _ => true
  | _ :: _, [] => false
  | a :: as, b :: bs => a == b && hasPrefixCL as bs

/-- Model of JS `String.prototype.includes`: `needle` occurs contiguously
inside `hay`. -/
def containsCL (hay needle : List Char) : Bool :=
  match hay with
  | [] => needle.isEmpty
  | _ :: t => hasPrefixCL needle hay || containsCL t needle

/-- String wrapper for `trimCL` (JS `s.trim()`). -/
def strTrim (s : String) : String := ⟨trimCL s.data⟩

/-- String wrapper for `containsCL` (JS `hay.includes(needle)`). -/
def strIncludes (hay needle : String) : Bool := containsCL hay.data needle.data

/-- String wrapper for prefix testing (JS `s.startsWith(pre)`). -/
def strStartsWith (s pre : String) : Bool := hasPrefixCL pre.data s.data

/-! ## A stable sort modelling `Array.prototype.sort`

ES2019 requires `Array.prototype.sort` to be stable; for a consistent
comparator `c` the result is the unique stable sort with respect to
`le a b := c a b ≤ 0`.  `stableSort` computes exactly that ordering:
`insertLE` places a new element (which occurs earlier in the input) before
the first existing element it is `le`-related to. -/

def insertLE (le : α → α → Bool) (a : α) : List α → List α
  | [] => [a]
  | b :: t => if le a b then a :: b :: t else b :: insertLE le a t

def stableSort (le : α → α → Bool) : List α → List α
  | [] => []
  | a :: t => insertLE le a (stableSort le t)

theorem insertLE_perm (le : α → α → Bool) (a : α) (l : List α) :
    List.Perm (insertLE le a l) (a :: l) := by
  induction l with
  | nil => simp [insertLE]
  | cons b t ih =>
    simp only [insertLE]
    by_cases h : le a b
    · simp [h]
    · simp only [h]
      exact ((ih.cons b).trans (List.Perm.swap a b t)).symm.symm

theorem stableSort_perm (le : α → α → Bool) (l : List α) :
    List.Perm (stableSort le l) l := by
  induction l with
  | nil => simp [stableSort]
  | cons a t ih =>
    exact (insertLE_perm le a (stableSort le t)).trans (ih.cons a)

theorem mem_insertLE {le : α → α → Bool} {a x : α} {l : List α} :
    x ∈ insertLE le a l ↔ x = a ∨ x ∈ l := by
  rw [(insertLE_perm le a l).mem_iff, List.mem_cons]

theorem stableSort_pairwise (le : α → α → Bool)
    (htrans : ∀ a b c, le a b = true → le b c = true → le a c = true)
    (htotal : ∀ a b, le a b = true ∨ le b a = true) (l : List α) :
    List.Pairwise (fun a b => le a b = true) (stableSort le l) := by
  induction l with
  | nil => simp [stableSort]
  | cons a t ih =>
    simp only [stableSort]
    generalize hs : stableSort le t = s at ih
    clear hs
    induction s with
    | nil => simp [insertLE]
    | cons b u ihs =>
      rcases List.pairwise_cons.mp ih with ⟨hb, hu⟩
      simp only [insertLE]
      by_cases h : le a b
      · simp only [h, if_true]
        refine List.pairwise_cons.mpr ⟨?_, ih⟩
        intro x hx
        rcases List.mem_cons.mp hx with rfl | hx
        · exact h
        · exact htrans a b x h (hb x hx)
      · simp only [h, if_false]
        refine List.pairwise_cons.mpr ⟨?_, ihs hu⟩
        intro x hx
        rcases mem_insertLE.mp hx with hxa | hx
        · rcases htotal a b with hab | hba
          · exact absurd hab h
          · exact hxa ▸ hba
        · exact hb x hx

/-! ## Fallback Catalog (`src/tools/catalog.ts`) -/

structure ToolCatalogEntry where
  id : String
  name : String
  title : String
  description : String
  url : String
deriving DecidableEq, Repr

def repoUrl : String := "https://github.com/TaazKareem/clickup-mcp-server"

def toolCatalog : List ToolCatalogEntry := [
  { id := "tool:search", name := "search", title := "Search", description := "Universal retrieval: search by keywords and return top-k IDs.", url := repoUrl },
  { id := "tool:fetch", name := "fetch", title := "Fetch", description := "Universal retrieval: fetch a single document by ID and return id, title, text, url, metadata.", url := repoUrl },
  { id := "tool:get_workspace_hierarchy", name := "get_workspace_hierarchy", title := "Get Workspace Hierarchy", description := "Gets complete workspace hierarchy (spaces, folders, lists).", url := repoUrl },
  { id := "tool:create_task", name := "create_task", title := "Create Task", description := "Creates a ClickUp task in a list.", url := repoUrl },
  { id := "tool:update_task", name := "update_task", title := "Update Task", description := "Updates an existing ClickUp task.", url := repoUrl },
  { id := "tool:move_task", name := "move_task", title := "Move Task", description := "Moves a ClickUp task to another list.", url := repoUrl },
  { id := "tool:duplicate_task", name := "duplicate_task", title := "Duplicate Task", description := "Duplicates a ClickUp task.", url := repoUrl },
  { id := "tool:get_task", name := "get_task", title := "Get Task", description := "Retrieves a ClickUp task by ID.", url := repoUrl },
  { id := "tool:delete_task", name := "delete_task", title := "Delete Task", description := "Deletes a ClickUp task by ID.", url := repoUrl },
  { id := "tool:get_task_comments", name := "get_task_comments", title := "Get Task Comments", description := "Gets comments for a ClickUp task.", url := repoUrl },
  { id := "tool:create_task_comment", name := "create_task_comment", title := "Create Task Comment", description := "Creates a new comment on a ClickUp task.", url := repoUrl },
  { id := "tool:attach_task_file", name := "attach_task_file", title := "Attach Task File", description := "Attaches a file to a ClickUp task.", url := repoUrl },
  { id := "tool:get_workspace_tasks", name := "get_workspace_tasks", title := "Get Workspace Tasks", description := "Retrieves tasks across the workspace with filters.", url := repoUrl },
  { id := "tool:get_task_time_entries", name := "get_task_time_entries", title := "Get Task Time Entries", description := "Gets time entries for a task.", url := repoUrl },
  { id := "tool:start_time_tracking", name := "start_time_tracking", title := "Start Time Tracking", description := "Starts time tracking for a task.", url := repoUrl },
  { id := "tool:stop_time_tracking", name := "stop_time_tracking", title := "Stop Time Tracking", description := "Stops time tracking for a task.", url := repoUrl },
  { id := "tool:add_time_entry", name := "add_time_entry", title := "Add Time Entry", description := "Adds a manual time entry to a task.", url := repoUrl },
  { id := "tool:delete_time_entry", name := "delete_time_entry", title := "Delete Time Entry", description := "Deletes a time entry from a task.", url := repoUrl },
  { id := "tool:get_current_time_entry", name := "get_current_time_entry", title := "Get Current Time Entry", description := "Gets currently running time entry.", url := repoUrl },
  { id := "tool:create_list", name := "create_list", title := "Create List", description := "Creates a list within a folder or space.", url := repoUrl },
  { id := "tool:create_list_in_folder", name := "create_list_in_folder", title := "Create List in Folder", description := "Creates a list within a folder.", url := repoUrl },
  { id := "tool:get_list", name := "get_list", title := "Get List", description := "Retrieves a list by ID.", url := repoUrl },
  { id := "tool:update_list", name := "update_list", title := "Update List", description := "Updates a list.", url := repoUrl },
  { id := "tool:delete_list", name := "delete_list", title := "Delete List", description := "Deletes a list.", url := repoUrl },
  { id := "tool:create_folder", name := "create_folder", title := "Create Folder", description := "Creates a folder within a space.", url := repoUrl },
  { id := "tool:get_folder", name := "get_folder", title := "Get Folder", description := "Retrieves a folder by ID.", url := repoUrl },
  { id := "tool:update_folder", name := "update_folder", title := "Update Folder", description := "Updates a folder.", url := repoUrl },
  { id := "tool:delete_folder", name := "delete_folder", title := "Delete Folder", description := "Deletes a folder.", url := repoUrl },
  { id := "tool:get_space_tags", name := "get_space_tags", title := "Get Space Tags", description := "Lists all tags in a space.", url := repoUrl },
  { id := "tool:add_tag_to_task", name := "add_tag_to_task", title := "Add Tag to Task", description := "Adds a tag to a task.", url := repoUrl },
  { id := "tool:remove_tag_from_task", name := "remove_tag_from_task", title := "Remove Tag from Task", description := "Removes a tag from a task.", url := repoUrl },
  { id := "tool:get_workspace_members", name := "get_workspace_members", title := "Get Workspace Members", description := "Returns all members in the workspace.", url := repoUrl },
  { id := "tool:find_member_by_name", name := "find_member_by_name", title := "Find Member by Name", description := "Finds a member by name or email.", url := repoUrl },
  { id := "tool:resolve_assignees", name := "resolve_assignees", title := "Resolve Assignees", description := "Resolves names/emails to user IDs.", url := repoUrl },
  { id := "tool:create_document", name := "create_document", title := "Create Document", description := "Creates a document in a space, folder, or list.", url := repoUrl },
  { id := "tool:get_document", name := "get_document", title := "Get Document", description := "Gets details of a ClickUp document.", url := repoUrl },
  { id := "tool:list_documents", name := "list_documents", title := "List Documents", description := "Lists documents under a parent container.", url := repoUrl },
  { id := "tool:list_document_pages", name := "list_document_pages", title := "List Document Pages", description := "Lists pages in a document.", url := repoUrl },
  { id := "tool:get_document_pages", name := "get_document_pages", title := "Get Document Pages", description := "Gets content of specific document pages.", url := repoUrl },
  { id := "tool:create_document_page", name := "create_document_page", title := "Create Document Page", description := "Creates a new page in a document.", url := repoUrl },
  { id := "tool:update_document_page", name := "update_document_page", title := "Update Document Page", description := "Updates a document page.", url := repoUrl }]

/-! ## Catalog text matching (`toolCatalogMatches` in `src/tools/search.ts`) -/

/-- Separator class of the regex `[\/\_\-\s]+` used by `toolCatalogMatches`. -/
def isSepChar (c : Char) : Bool := c == '/' || c == '_' || c == '-' || c.isWhitespace

/-- Split on separators and keep only non-empty pieces
(JS `.split(/[\/\_\-\s]+/).filter(p => p.length > 0)`). -/
def tokensCL (l : List Char) : List (List Char) :=
  (splitOnP isSepChar l).filter (fun q => !q.isEmpty)

/-- Lowercased combined text of a catalog entry:
JS `` `${tool.id} ${tool.name} ${tool.title} ${tool.description}`.toLowerCase() ``. -/
def toolTextCL (tool : ToolCatalogEntry) : List Char :=
  lowerCL (tool.id ++ " " ++ tool.name ++ " " ++ tool.title ++ " " ++ tool.description).data

/-- Embedding of `toolCatalogMatches(tool, query)`.  The JS threshold
`Math.floor(queryParts.length * 0.6)` equals `3 * queryParts.length / 5` in
exact (natural-number) arithmetic: for every list length `n` below `2^52`
the double product `n * 0.6` rounds to within half an ulp of `3n/5`, which
never crosses a floor boundary. -/
def toolCatalogMatches (tool : ToolCatalogEntry) (query : String) : Bool :=
  let q := lowerCL query.data
  let toolText := toolTextCL tool
  if containsCL toolText q then true
  else
    let queryParts := tokensCL q
    let toolParts := tokensCL toolText
    let matchCount := (queryParts.filter (fun qPart =>
      decide (2 ≤ qPart.length) &&
        toolParts.any (fun tPart => containsCL tPart qPart || containsCL qPart tPart))).length
    decide (max 1 (3 * queryParts.length / 5) ≤ matchCount)

/-! ## Universal search handler (`handleSearch` in `src/tools/search.ts`)

The backend call `taskService.getTaskSummaries(...)` is the sole
exception source inside the `try` block; it enters the embedding as a
`Except String (List TaskSummary)` argument.  The `content`,
`structuredContent` and `toolResult` response fields are verbatim mirrors of
`ids`/`objectIds`/`results` and are not modelled separately. -/

/-- Result of the external Matching Engine `isNameMatch(name, query)`.  The
unused `reason` field is omitted. -/
structure NameMatch where
  isMatch : Bool
  score : Int
deriving DecidableEq

/-- Lightweight task summary as consumed by `handleSearch`.  `date_updated`
is the integer parsed from the summary's `date_updated` string, `none` when
the field is missing or empty; `list` is `s.list?.name`. -/
structure TaskSummary where
  id : String
  name : String
  date_updated : Option Int
  status : Option String
  list : Option String
  url : Option String
deriving DecidableEq

/-- Scored summary `{ t, score, matched }` (the unused `reason` is
omitted). -/
structure Scored where
  t : TaskSummary
  score : Int
  matched : Bool
deriving DecidableEq

/-- JS `t?.date_updated ? parseInt(t.date_updated, 10) : 0`: a missing or
empty date counts as `0`. -/
def dateOf (s : TaskSummary) : Int := s.date_updated.getD 0

/-- Stable-sort order of the ranking comparator
`(a, b) => b.score !== a.score ? b.score - a.score : bd - ad`:
`a` may precede `b` iff the comparator value is `≤ 0`. -/
def rankLE (a b : Scored) : Bool :=
  if a.score = b.score then decide (dateOf b.t ≤ dateOf a.t)
  else decide (b.score < a.score)

/-- Stable-sort order of the recency comparator `(a, b) => bd - ad`. -/
def recencyLE (a b : TaskSummary) : Bool := decide (dateOf b ≤ dateOf a)

/-- One entry of the `results` array.  Fields that a given code path does not
set (for example `text` on catalog baseline items) are `none`. -/
structure SearchItem where
  id : String
  title : String
  text : Option String
  snippet : String
  url : String
  status : Option String
  list : Option String
deriving DecidableEq

/-- Task-derived result item as built on the ranked and recency-fallback
paths (identical field expressions in both). -/
def taskResultItem (s : TaskSummary) : SearchItem :=
  let listName := s.list.getD "Unknown list"
  let status := s.status.getD "unknown"
  let url := s.url.getD ""
  { id := s.id, title := s.name,
    text := some (s.name ++ (if url ≠ "" then "\n" ++ url else "")),
    snippet := "Status: " ++ status ++ "; List: " ++ listName,
    url := url, status := some status, list := some listName }

/-- Catalog item `{ id, title, snippet, url }` as built on the empty-query
and backend-error paths. -/
def catalogBaselineItem (t : ToolCatalogEntry) : SearchItem :=
  { id := t.id, title := t.title, text := none, snippet := t.description,
    url := t.url, status := none, list := none }

/-- Catalog item with assembled `text` as appended on the zero-match
fallback path. -/
def catalogFallbackItem (t : ToolCatalogEntry) : SearchItem :=
  { id := t.id, title := t.title,
    text := some (t.title ++ "\n\n" ++ t.description ++ "\n\nReference: " ++ t.url),
    snippet := t.description, url := t.url, status := none, list := none }

/-- Parameters of the `search` tool after the JS-side normalisation of
alternative spellings (`query`/`search`/`q`/bare string); `limit := none`
models a params object without a `limit` key. -/
structure SearchParams where
  query : String
  limit : Option Int
deriving DecidableEq

/-- Relevant top-level fields of the search response
(`content`/`structuredContent`/`toolResult` mirror these verbatim). -/
structure SearchResponse where
  ids : List String
  objectIds : List String
  results : List SearchItem
deriving DecidableEq

/-- JS `Math.max(1, Math.min(parseInt(String(rawLimit ?? 10), 10), 50))`. -/
def clampLimit (raw : Int) : Int := max 1 (min raw 50)

/-- The trimmed query string computed at the top of `handleSearch`. -/
def searchQuery (params : SearchParams) : String := strTrim params.query

/-- The effective limit of `handleSearch`; always in `[1, 50]`, so the
`Int → Nat` coercion is faithful. -/
def searchLimit (params : SearchParams) : Nat :=
  (clampLimit (params.limit.getD 10)).toNat

/-- Summaries paired with their Matching Engine verdicts (the `.map` step of
the ranking pipeline). -/
def scoredOf (matcher : String → String → NameMatch) (query : String)
    (summaries : List TaskSummary) : List Scored :=
  summaries.map fun t =>
    { t := t, score := (matcher t.name query).score,
      matched := (matcher t.name query).isMatch }

/-- The `.filter(r => r.matched)` step of the ranking pipeline. -/
def matchedOf (matcher : String → String → NameMatch) (query : String)
    (summaries : List TaskSummary) : List Scored :=
  (scoredOf matcher query summaries).filter (fun r => r.matched)

/-- The `.sort(...).slice(0, limit)` tail of the ranking pipeline. -/
def rankedOf (matcher : String → String → NameMatch) (query : String)
    (summaries : List TaskSummary) (k : Nat) : List Scored :=
  (stableSort rankLE (matchedOf matcher query summaries)).take k

/-- The recency fallback tier: all summaries sorted by descending
`date_updated`, truncated to the limit. -/
def recentOf (summaries : List TaskSummary) (k : Nat) : List TaskSummary :=
  (stableSort recencyLE summaries).take k

/-- Response value carrying the same id list as `ids` and `objectIds`. -/
def responseOf (ids : List String) (items : List SearchItem) : SearchResponse :=
  { ids := ids, objectIds := ids, results := items }

/-- Embedding of `handleSearch(params)` from the universal search tool.
`matcher` is the external `isNameMatch`, `toolIndexFallback` is
`config.openAiToolIndexFallback`, and `backend` is the outcome of
`taskService.getTaskSummaries(...)`.  Natural-number subtraction models JS
`Math.max(0, limit - structuredResults.length)`. -/
def handleSearch (matcher : String → String → NameMatch) (toolIndexFallback : Bool)
    (params : SearchParams) (backend : Except String (List TaskSummary)) :
    SearchResponse :=
  let query := searchQuery params
  let limit := searchLimit params
  if query = "" then
    let toolMatches := toolCatalog.take limit
    responseOf (toolMatches.map (fun t => t.id)) (toolMatches.map catalogBaselineItem)
  else
    match backend with
    | .error _ =>
      if toolIndexFallback then
        let toolMatches :=
          (toolCatalog.filter (fun t => toolCatalogMatches t query)).take 10
        responseOf (toolMatches.map (fun t => t.id)) (toolMatches.map catalogBaselineItem)
      else responseOf [] []
    | .ok summaries =>
      let ranked := rankedOf matcher query summaries limit
      if ranked.isEmpty then
        let fallback := recentOf summaries limit
        let taskItems := fallback.map taskResultItem
        let taskIds := fallback.map (fun s => s.id)
        let catMatches :=
          if toolIndexFallback then
            (toolCatalog.filter (fun t => toolCatalogMatches t query)).take
              (limit - taskItems.length)
          else []
        responseOf ((taskIds ++ catMatches.map (fun t => t.id)).take limit)
          ((taskItems ++ catMatches.map catalogFallbackItem).take limit)
      else
        responseOf (ranked.map (fun r => r.t.id)) (ranked.map (fun r => taskResultItem r.t))

/-! ## REST search endpoint (`app.get('/search')` in the transport server) -/

/-- JS `x || y` on strings: the empty string is falsy. -/
def jsOrStr (a b : String) : String := if a = "" then b else a

/-- JS `Math.min(parseInt(rawLimit) || 10, 50)` of the REST search endpoint:
`none` models an absent or unparseable `limit` query parameter (`parseInt`
gives `NaN`, which `|| 10` replaces, as it does `0`).  Note the absence of a
lower clamp. -/
def restEffLimit (rawLimit : Option Int) : Int :=
  min (match rawLimit with | none => 10 | some v => if v = 0 then 10 else v) 50

/-- JS `Array.prototype.slice(0, n)`: a negative end index counts from the
end of the array. -/
def jsTake (l : List α) (n : Int) : List α :=
  if 0 ≤ n then l.take n.toNat else l.take ((l.length : Int) + n).toNat

/-- One entry of the REST `results` payload (the nested
`metadata: { status, list, category }` object is flattened into the
`status`/`list` fields; `category` and `name` are never set by the search
handler's items and are not modelled). -/
structure RestSearchItem where
  id : String
  title : String
  text : String
  url : String
  snippet : String
  source_url : String
  status : Option String
  list : Option String
deriving DecidableEq

/-- REST normalisation `item => ({ id, title, text: item.text || item.snippet
|| item.description || '', url: item.url || '', snippet: ..., source_url:
... })` applied to a search-handler item (which never carries a
`description` field). -/
def restItemOfSearchItem (it : SearchItem) : RestSearchItem :=
  { id := it.id, title := it.title,
    text := jsOrStr (it.text.getD "") it.snippet,
    url := it.url, snippet := it.snippet, source_url := it.url,
    status := it.status, list := it.list }

/-- Catalog-derived REST item used when the query is empty or the handler
returned nothing. -/
def restCatalogItem (t : ToolCatalogEntry) : RestSearchItem :=
  { id := t.id, title := t.title,
    text := t.title ++ "\n\n" ++ t.description ++ "\n\nReference: " ++ t.url,
    url := t.url, snippet := t.description, source_url := t.url,
    status := none, list := none }

/-- HTTP outcome of a REST endpoint: status code plus `results` body. -/
structure RestResponse where
  status : Nat
  results : List RestSearchItem
deriving DecidableEq

/-- Embedding of `app.get('/search', ...)`.  `handleSearch` is total (it
never rethrows), so the endpoint's `catch`/500 branch is unreachable and all
modelled paths answer 200.  The final `items.length > 0` test is
output-equivalent to mapping the (possibly empty) list directly. -/
def restSearchGet (matcher : String → String → NameMatch) (toolIndexFallback : Bool)
    (query : String) (rawLimit : Option Int)
    (backend : Except String (List TaskSummary)) : RestResponse :=
  let limit := restEffLimit rawLimit
  if strTrim query = "" then
    { status := 200, results := (jsTake toolCatalog limit).map restCatalogItem }
  else
    let result := handleSearch matcher toolIndexFallback ⟨query, some limit⟩ backend
    let items :=
      if result.results.isEmpty then (jsTake toolCatalog limit).map restCatalogItem
      else result.results.map restItemOfSearchItem
    { status := 200, results := items }

/-! ## Universal fetch handler (`handleFetch` in `src/tools/fetch.ts`) -/

/-- Relevant fields of a ClickUp task record as read by `handleFetch`:
`status` is `task.status?.status`, `list` is `task.list?.name` (`none` for a
missing/undefined field). -/
structure ClickUpTask where
  id : String
  name : String
  status : Option String
  list : Option String
  url : Option String
  text_content : Option String
  description : Option String
deriving DecidableEq

/-- The untransformed record kept in the `raw` field. -/
inductive FetchRaw where
  | catalogEntry (e : ToolCatalogEntry)
  | task (t : ClickUpTask)
deriving DecidableEq

/-- Flat fetch document; `metadata` is an ordered key/value mapping in which
a JS `undefined` entry is simply absent. -/
structure FetchDoc where
  id : String
  title : String
  text : String
  url : String
  metadata : List (String × String)
  raw : FetchRaw
deriving DecidableEq

/-- Outcome of `handleFetch`: a document, or the structured error response
produced by `sponsorService.createErrorResponse` (whose top-level shape has
no `id`/`text` fields — the property REST callers sniff for). -/
inductive FetchResult where
  | doc (d : FetchDoc)
  | error (msg : String)
deriving DecidableEq

/-- Assembled text of a catalog document:
JS `` `${entry.title}\n\n${entry.description}\n\nReference: ${entry.url}` ``. -/
def catalogDocText (e : ToolCatalogEntry) : String :=
  e.title ++ "\n\n" ++ e.description ++ "\n\nReference: " ++ e.url

/-- Catalog document returned for a `tool:` id. -/
def catalogDoc (e : ToolCatalogEntry) : FetchDoc :=
  { id := e.id, title := e.title, text := catalogDocText e, url := e.url,
    metadata := [("name", e.name), ("category", "tool")],
    raw := .catalogEntry e }

/-- JS `task.status?.status ?? 'unknown'`. -/
def taskStatusOf (t : ClickUpTask) : String := t.status.getD "unknown"

/-- JS `task.list?.name ?? ''`. -/
def taskListOf (t : ClickUpTask) : String := t.list.getD ""

/-- JS `task.url || ''`. -/
def taskUrlOf (t : ClickUpTask) : String := t.url.getD ""

/-- JS `(task.text_content ?? task.description ?? '').toString()`. -/
def taskDescriptionOf (t : ClickUpTask) : String :=
  match t.text_content with
  | some d => d
  | none => t.description.getD ""

/-- JS `textParts.join('\n')`. -/
def joinLines : List String → String
  | [] => ""
  | [s] => s
  | s :: r :: t => s ++ "\n" ++ joinLines (r :: t)

/-- Text assembly of `handleFetch` for a backend task: conditional
`textParts.push(...)` calls followed by `join('\n')`. -/
def taskDocText (t : ClickUpTask) : String :=
  joinLines
    ((if taskDescriptionOf t ≠ "" then [taskDescriptionOf t] else []) ++
     (if taskStatusOf t ≠ "" then ["Status: " ++ taskStatusOf t] else []) ++
     (if taskListOf t ≠ "" then ["List: " ++ taskListOf t] else []) ++
     (if taskUrlOf t ≠ "" then [taskUrlOf t] else []))

/-- Document built from a backend task;
`metadata = { status, list: listName || undefined }`, with the `undefined`
entry absent from the mapping. -/
def taskDoc (t : ClickUpTask) : FetchDoc :=
  { id := t.id, title := t.name, text := taskDocText t, url := taskUrlOf t,
    metadata := [("status", taskStatusOf t)] ++
      (if taskListOf t ≠ "" then [("list", taskListOf t)] else []),
    raw := .task t }

/-- Embedding of the universal `handleFetch(params)`; `backend` is
`taskService.getTask`, whose failure is the only exception source of the
`try` block. -/
def handleFetch (id : String) (backend : String → Except String ClickUpTask) :
    FetchResult :=
  if id = "" then .error "Missing required parameter: id"
  else if strStartsWith id "tool:" then
    match toolCatalog.find? (fun e => e.id == id) with
    | some entry => .doc (catalogDoc entry)
    | none => .error ("Unknown tool id: " ++ id)
  else
    match backend id with
    | .ok task => .doc (taskDoc task)
    | .error e => .error ("Fetch failed: " ++ e)

/-! ## Accept-header normalization middleware (both transport-server
versions carry the identical block for `req.path === '/mcp'`) -/

/-- Token inserted for the plain-response content type. -/
def acceptJsonTok : List Char := "application/json".data

/-- Token inserted for the streaming-response content type. -/
def acceptSseTok : List Char := "text/event-stream".data

/-- JS `original.split(',').map(s => s.trim()).filter(Boolean)`. -/
def acceptParts (s : List Char) : List (List Char) :=
  ((splitOnP (fun c => c == ',') s).map trimCL).filter (fun p => !p.isEmpty)

def dedupFirstAux (seen : List (List Char)) : List (List Char) → List (List Char)
  | [] => []
  | a :: rest =>
    if a ∈ seen then dedupFirstAux seen rest
    else a :: dedupFirstAux (a :: seen) rest

/-- JS `Array.from(new Set(parts))`: keep the first occurrence of each
element, in insertion order. -/
def dedupFirst (l : List (List Char)) : List (List Char) := dedupFirstAux [] l

/-- JS `parts.join(', ')`. -/
def joinCommaSpace : List (List Char) → List Char
  | [] => []
  | [q] => q
  | q :: r :: t => q ++ ',' :: ' ' :: joinCommaSpace (r :: t)

/-- Embedding of the Accept-normalization middleware body for `/mcp`: when a
required content type is missing from the header, push it, de-duplicate, and
re-join; otherwise (`changed === false`) leave the header untouched. -/
def normalizeAccept (s : List Char) : List Char :=
  let parts := acceptParts s
  let hasJson := parts.any (fun p => containsCL p acceptJsonTok)
  let hasSse := parts.any (fun p => containsCL p acceptSseTok)
  if hasJson && hasSse then s
  else
    joinCommaSpace (dedupFirst
      ((parts ++ (if hasJson then [] else [acceptJsonTok])) ++
        (if hasSse then [] else [acceptSseTok])))

/-! ## Session-bound `/mcp` endpoints (`app.post('/mcp')` and
`handleSessionRequest` in the transport server) -/

/-- Observable outcome of an `/mcp` request. -/
inductive McpResponse where
  | aliasSearch
  | aliasFetch
  | handled (sessionId : String)
  | newSession
  | badRequest (code : Int) (message : String)
deriving DecidableEq

/-- Suffix testing (JS `s.endsWith(suf)`). -/
def strEndsWith (s suf : String) : Bool := hasPrefixCL suf.data.reverse s.data.reverse

/-- JS `x || y` over possibly-missing header strings (an empty string is
falsy and falls through). -/
def jsOrOptStr (a b : Option String) : Option String :=
  match a with
  | some s => if s = "" then b else some s
  | none => b

/-- Forwarded-path recovery
`(x-original-uri || x-rewrite-url || x-forwarded-uri || x-forwarded-url)`
followed by `forwardedUri || req.originalUrl`; the further `|| req.url ||
req.path` fallbacks coincide with `originalUrl` for an Express request and
are not modelled separately. -/
def recoveredPath (xOriginalUri xRewriteUrl xForwardedUri xForwardedUrl : Option String)
    (originalUrl : String) : String :=
  jsOrStr
    ((jsOrOptStr xOriginalUri (jsOrOptStr xRewriteUrl
        (jsOrOptStr xForwardedUri xForwardedUrl))).getD "")
    originalUrl

/-- JS `effectivePath && (effectivePath.endsWith('/mcp/search') ||
effectivePath.includes('/mcp/search'))`. -/
def isSearchAlias (p : String) : Bool :=
  p ≠ "" && (strEndsWith p "/mcp/search" || strIncludes p "/mcp/search")

/-- The analogous test for `/mcp/fetch`. -/
def isFetchAlias (p : String) : Bool :=
  p ≠ "" && (strEndsWith p "/mcp/fetch" || strIncludes p "/mcp/fetch")

/-- Embedding of `handleSessionRequest` (GET/DELETE `/mcp`): serve a REST
alias when path recovery finds one, otherwise require a resolvable
`mcp-session-id` header.  `registered` is membership in
`transports.streamable`; an empty header string is falsy in
`!sessionId`. -/
def handleSessionRequest (effectivePath : String) (sessionId : Option String)
    (registered : String → Bool) : McpResponse :=
  if isSearchAlias effectivePath then .aliasSearch
  else if isFetchAlias effectivePath then .aliasFetch
  else
    match sessionId with
    | none => .badRequest (-32000) "Bad Request: Mcp-Session-Id header is required"
    | some sid =>
      if sid ≠ "" && registered sid then .handled sid
      else .badRequest (-32000) "Bad Request: Mcp-Session-Id header is required"

/-- Embedding of the session dispatch of `app.post('/mcp')`: a resolvable id
is reused, a missing (or empty, hence falsy) id initializes a new transport,
and anything else is rejected. -/
def postMcp (sessionId : Option String) (registered : String → Bool) : McpResponse :=
  match sessionId with
  | some sid =>
    if sid ≠ "" && registered sid then .handled sid
    else if sid = "" then .newSession
    else .badRequest (-32000) "Bad Request: No valid session ID provided"
  | none => .newSession

/-! ## Properties of the ranking order -/

/-- The intended ranking relation: strictly higher score first, ties broken
by more recent `date_updated` (missing date treated as `0`). -/
def rankRel (a b : Scored) : Prop :=
  b.score < a.score ∨ (a.score = b.score ∧ dateOf b.t ≤ dateOf a.t)

theorem rankLE_iff {a b : Scored} : rankLE a b = true ↔ rankRel a b := by
  unfold rankLE rankRel
  split_ifs with h
  · simp only [decide_eq_true_eq]
    constructor
    · intro hd; exact Or.inr ⟨h, hd⟩
    · rintro (hlt | ⟨_, hd⟩)
      · omega
      · exact hd
  · simp only [decide_eq_true_eq]
    constructor
    · intro hlt; exact Or.inl hlt
    · rintro (hlt | ⟨he, _⟩)
      · exact hlt
      · exact absurd he h

theorem rankLE_trans (a b c : Scored) (hab : rankLE a b = true)
    (hbc : rankLE b c = true) : rankLE a c = true := by
  unfold rankLE at hab hbc ⊢
  split_ifs at hab hbc ⊢ <;>
    simp only [decide_eq_true_eq] at hab hbc ⊢ <;> omega

theorem rankLE_total (a b : Scored) : rankLE a b = true ∨ rankLE b a = true := by
  unfold rankLE
  split_ifs <;> simp only [decide_eq_true_eq] <;> omega

theorem recencyLE_trans (a b c : TaskSummary) (hab : recencyLE a b = true)
    (hbc : recencyLE b c = true) : recencyLE a c = true := by
  simp only [recencyLE, decide_eq_true_eq] at hab hbc ⊢
  omega

theorem recencyLE_total (a b : TaskSummary) :
    recencyLE a b = true ∨ recencyLE b a = true := by
  simp only [recencyLE, decide_eq_true_eq]
  omega

theorem searchLimit_pos (params : SearchParams) : 1 ≤ searchLimit params := by
  unfold searchLimit clampLimit
  have h : (1 : Int) ≤ max 1 (min (params.limit.getD 10) 50) := le_max_left _ _
  omega

theorem searchLimit_le (params : SearchParams) : searchLimit params ≤ 50 := by
  unfold searchLimit clampLimit
  have h1 : min (params.limit.getD 10) 50 ≤ 50 := min_le_right _ _
  have h2 : max 1 (min (params.limit.getD 10) 50) ≤ 50 := by omega
  omega

theorem rankedOf_ne_nil {matcher : String → String → NameMatch} {query : String}
    {summaries : List TaskSummary} (params : SearchParams)
    (hm : matchedOf matcher query summaries ≠ []) :
    rankedOf matcher query summaries (searchLimit params) ≠ [] := by
  unfold rankedOf
  intro hcon
  have hperm := stableSort_perm rankLE (matchedOf matcher query summaries)
  have hlen := hperm.length_eq
  have hml : 0 < (matchedOf matcher query summaries).length :=
    List.length_pos.mpr hm
  have hk := searchLimit_pos params
  have : (List.take (searchLimit params)
      (stableSort rankLE (matchedOf matcher query summaries))).length = 0 := by
    rw [hcon]; rfl
  rw [List.length_take] at this
  omega

/-- C1: for a non-empty query and matched summaries present, the handler's
response is built from the ranking pipeline: only Matching-Engine-matched
summaries are kept, they are sorted by strictly descending score with ties
broken by descending `date_updated` (missing date `0`), and the sorted list
is truncated to the effective limit before the response is assembled (the
truncated ranking is a permutation-prefix of the matched set that dominates
every dropped element). -/
theorem c1_search_ranking
    (matcher : String → String → NameMatch) (cfg : Bool) (params : SearchParams)
    (summaries : List TaskSummary)
    (hq : searchQuery params ≠ "")
    (hm : matchedOf matcher (searchQuery params) summaries ≠ []) :
    (handleSearch matcher cfg params (.ok summaries)).results =
      (rankedOf matcher (searchQuery params) summaries (searchLimit params)).map
        (fun r => taskResultItem r.t) ∧
    (handleSearch matcher cfg params (.ok summaries)).ids =
      (rankedOf matcher (searchQuery params) summaries (searchLimit params)).map
        (fun r => r.t.id) ∧
    (∀ r ∈ rankedOf matcher (searchQuery params) summaries (searchLimit params),
      r.matched = true) ∧
    List.Pairwise rankRel
      (rankedOf matcher (searchQuery params) summaries (searchLimit params)) ∧
    (rankedOf matcher (searchQuery params) summaries (searchLimit params)).length =
      min (searchLimit params) (matchedOf matcher (searchQuery params) summaries).length ∧
    List.Perm (stableSort rankLE (matchedOf matcher (searchQuery params) summaries))
      (matchedOf matcher (searchQuery params) summaries) ∧
    (∀ a ∈ rankedOf matcher (searchQuery params) summaries (searchLimit params),
      ∀ b ∈ (stableSort rankLE (matchedOf matcher (searchQuery params) summaries)).drop
        (searchLimit params), rankRel a b) := by
  have hne := rankedOf_ne_nil params hm
  have hsorted := stableSort_pairwise rankLE rankLE_trans rankLE_total
    (matchedOf matcher (searchQuery params) summaries)
  have hpairRel : List.Pairwise rankRel
      (stableSort rankLE (matchedOf matcher (searchQuery params) summaries)) :=
    hsorted.imp (fun h => rankLE_iff.mp h)
  have hperm := stableSort_perm rankLE (matchedOf matcher (searchQuery params) summaries)
  refine ⟨?_, ?_, ?_, ?_, ?_, hperm, ?_⟩
  · simp only [handleSearch, responseOf, hq, if_false, reduceIte,
      List.isEmpty_iff, hne]
  · simp only [handleSearch, responseOf, hq, if_false, reduceIte,
      List.isEmpty_iff, hne]
  · intro r hr
    have hr' : r ∈ matchedOf matcher (searchQuery params) summaries :=
      hperm.mem_iff.mp ((List.take_sublist _ _).subset hr)
    exact List.of_mem_filter hr'
  · exact hpairRel.sublist (List.take_sublist _ _)
  · unfold rankedOf
    rw [List.length_take, hperm.length_eq]
  · intro a ha b hb
    have hsplit := List.take_append_drop (searchLimit params)
      (stableSort rankLE (matchedOf matcher (searchQuery params) summaries))
    have hp : List.Pairwise rankRel
        ((stableSort rankLE (matchedOf matcher (searchQuery params) summaries)).take
            (searchLimit params) ++
          (stableSort rankLE (matchedOf matcher (searchQuery params) summaries)).drop
            (searchLimit params)) := by
      rw [hsplit]; exact hpairRel
    exact (List.pairwise_append.mp hp).2.2 a ha b hb

/-! ## Concrete fixtures used by witnesses and counterexamples -/

/-- A concrete Matching Engine: everything except the name `"skip"` matches,
scored by name length. -/
def probeMatcher : String → String → NameMatch :=
  fun name _ => { isMatch := name ≠ "skip", score := (name.length : Int) }

/-- A Matching Engine that never matches (drives the fallback tiers). -/
def noneMatcher : String → String → NameMatch :=
  fun _ _ => { isMatch := false, score := 0 }

def probeParams : SearchParams := { query := "alpha", limit := some 2 }

def probeSummaries : List TaskSummary :=
  [{ id := "1", name := "aa", date_updated := some 5, status := some "open",
     list := some "Inbox", url := some "https://app.clickup.com/t/1" },
   { id := "2", name := "bbb", date_updated := some 3, status := none,
     list := none, url := none },
   { id := "3", name := "skip", date_updated := none, status := none,
     list := none, url := none }]

/-- Copy of the catalog's own `search` entry, used as a concrete test
input. -/
def searchToolEntry : ToolCatalogEntry :=
  { id := "tool:search", name := "search", title := "Search",
    description := "Universal retrieval: search by keywords and return top-k IDs.",
    url := repoUrl }

/-! ## C10 — session-id rejection on the `/mcp` endpoints -/

/-- C10: a GET/DELETE `/mcp` request whose recovered path is not a
search/fetch alias and whose session id is absent, empty, or unregistered is
answered with the structured 400 rejection `-32000` /
`"Bad Request: Mcp-Session-Id header is required"`; a POST `/mcp` carrying a
non-empty unregistered session id is rejected with `-32000` /
`"Bad Request: No valid session ID provided"` and in particular does not
create a fresh session. -/
theorem c10_session_rejection (effectivePath : String) (sessionId : Option String)
    (registered : String → Bool) (sid : String)
    (haliasS : isSearchAlias effectivePath = false)
    (haliasF : isFetchAlias effectivePath = false)
    (hsid : match sessionId with
            | none => True
            | some s => s = "" ∨ registered s = false)
    (hne : sid ≠ "") (hreg : registered sid = false) :
    handleSessionRequest effectivePath sessionId registered =
      .badRequest (-32000) "Bad Request: Mcp-Session-Id header is required" ∧
    postMcp (some sid) registered =
      .badRequest (-32000) "Bad Request: No valid session ID provided" ∧
    postMcp (some sid) registered ≠ .newSession := by
  refine ⟨?_, ?_, ?_⟩
  · unfold handleSessionRequest
    rw [haliasS, haliasF]
    simp only [Bool.false_eq_true, if_false]
    match sessionId, hsid with
    | none, _ => rfl
    | some s, h =>
      rcases h with h | h
      · subst h; simp
      · simp [h]
  · unfold postMcp
    simp [hne, hreg]
  · unfold postMcp
    simp [hne, hreg]

/-- Witness for C10 at path `/mcp`, an unregistered header id, and an empty
session registry. -/
theorem c10_session_rejection_witness :
    (isSearchAlias "/mcp" = false ∧ isFetchAlias "/mcp" = false ∧
      ("sess1" : String) ≠ "" ∧ (fun _ : String => false) "sess1" = false) ∧
    handleSessionRequest "/mcp" (some "sess1") (fun _ => false) =
      .badRequest (-32000) "Bad Request: Mcp-Session-Id header is required" ∧
    postMcp (some "sess1") (fun _ => false) =
      .badRequest (-32000) "Bad Request: No valid session ID provided" ∧
    postMcp (some "sess1") (fun _ => false) ≠ .newSession :=
  ⟨⟨by decide, by decide, by decide, rfl⟩,
    c10_session_rejection "/mcp" (some "sess1") (fun _ => false) "sess1"
      (by decide) (by decide) (Or.inr rfl) (by decide) rfl⟩

/-! ## C6 — fetch of `tool:` ids resolves against the catalog only -/

/-- C6: for an id with the `tool:` prefix, `handleFetch` never consults the
backend (its result is invariant under changing the backend), returns the
catalog entry's document when the entry exists and a structured error when
it does not; in particular `fetch("tool:search")` succeeds with the
catalog's own self-describing document for every backend. -/
theorem c6_fetch_tool_ids (id : String) (b1 b2 : String → Except String ClickUpTask)
    (hid : strStartsWith id "tool:" = true) :
    handleFetch id b1 = handleFetch id b2 ∧
    (match toolCatalog.find? (fun x => x.id == id) with
     | some e => handleFetch id b1 = .doc (catalogDoc e)
     | none => handleFetch id b1 = .error ("Unknown tool id: " ++ id)) ∧
    handleFetch "tool:search" b1 = .doc (catalogDoc searchToolEntry) := by
  refine ⟨?_, ?_, rfl⟩
  · unfold handleFetch
    by_cases h0 : id = ""
    · simp [h0]
    · simp only [h0, if_false, hid, if_true, reduceIte]
  · unfold handleFetch
    have h0 : id ≠ "" := by
      intro h; rw [h] at hid; exact absurd hid (by decide)
    simp only [h0, if_false, hid, if_true, reduceIte]
    cases hfind : toolCatalog.find? (fun x => x.id == id) with
    | some e => rfl
    | none => rfl

/-- Concrete task fixture. -/
def probeTask : ClickUpTask :=
  { id := "86aaa11", name := "Send invoice to client",
    status := some "in progress", list := some "Billing",
    url := some "https://app.clickup.com/t/86aaa11",
    text_content := some "Invoice for March.", description := none }

/-- A backend that always fails. -/
def probeBackendErr : String → Except String ClickUpTask :=
  fun _ => .error "ClickUp API down"

/-- A backend that always returns `probeTask`. -/
def probeBackendOk : String → Except String ClickUpTask :=
  fun _ => .ok probeTask

/-- Witness for C6 at `id = "tool:search"` with two observably different
backends (one failing, one succeeding). -/
theorem c6_fetch_tool_ids_witness :
    strStartsWith "tool:search" "tool:" = true ∧
    handleFetch "tool:search" probeBackendErr =
      handleFetch "tool:search" probeBackendOk ∧
    handleFetch "tool:search" probeBackendErr =
      .doc (catalogDoc searchToolEntry) :=
  ⟨by decide,
    (c6_fetch_tool_ids "tool:search" probeBackendErr probeBackendOk (by decide)).1,
    (c6_fetch_tool_ids "tool:search" probeBackendErr probeBackendOk (by decide)).2.2⟩

/-- Witness for C1 at a concrete matcher, params and summary list (two
matched summaries, one unmatched). -/
theorem c1_search_ranking_witness :
    (searchQuery probeParams ≠ "" ∧
      matchedOf probeMatcher (searchQuery probeParams) probeSummaries ≠ []) ∧
    (handleSearch probeMatcher false probeParams (.ok probeSummaries)).results =
      (rankedOf probeMatcher (searchQuery probeParams) probeSummaries
        (searchLimit probeParams)).map (fun r => taskResultItem r.t) :=
  ⟨⟨by decide, by decide⟩,
    (c1_search_ranking probeMatcher false probeParams probeSummaries
      (by decide) (by decide)).1⟩

/-! ## C2 — limit clamping -/

/-- C2 counterexample.  First failure: on the backend-error fallback path the
handler ignores the clamped limit `1` and returns 10 catalog matches for the
query `"task"`.  Second failure: the REST search endpoint computes
`Math.min(parseInt("-5") || 10, 50) = -5`, an effective limit outside
`[1, 50]`; observably, the empty-query REST path then serves
`slice(0, -5)` = 36 of the 41 catalog entries. -/
theorem c2_limit_counterexample :
    searchLimit { query := "task", limit := some 1 } = 1 ∧
    (handleSearch probeMatcher true { query := "task", limit := some 1 }
      (.error "boom")).results.length = 10 ∧
    ¬ ((handleSearch probeMatcher true { query := "task", limit := some 1 }
      (.error "boom")).results.length ≤ 1) ∧
    restEffLimit (some (-5)) = -5 ∧
    ¬ (1 ≤ restEffLimit (some (-5)) ∧ restEffLimit (some (-5)) ≤ 50) ∧
    (restSearchGet probeMatcher true "" (some (-5)) (.ok [])).results.length = 36 :=
  ⟨rfl, rfl, by decide, rfl, by decide, rfl⟩

/-- C2 (amended): for a non-empty query, on the backend-success paths the
handler returns at most the clamped limit `max(1, min(limit, 50))` results
(hence at most `limit` whenever `limit ∈ [1, 50]`); on the backend-error
fallback path the handler ignores the limit and returns at most 10 catalog
entries; the handler clamps every integer limit into `[1, 50]` and never
rejects a request for its limit value; the REST search endpoint clamps only
the upper bound: its effective limit is `min(raw, 50)` for non-zero integer
input and the default 10 for an absent, unparseable or zero input, so
negative limits pass through. -/
theorem c2_limit_amended (matcher : String → String → NameMatch) (cfg : Bool)
    (params : SearchParams) (summaries : List TaskSummary) (e : String) (v : Int)
    (hq : searchQuery params ≠ "") (hv : v ≠ 0) :
    (handleSearch matcher cfg params (.ok summaries)).results.length ≤
      searchLimit params ∧
    (handleSearch matcher cfg params (.error e)).results.length ≤ 10 ∧
    1 ≤ searchLimit params ∧ searchLimit params ≤ 50 ∧
    restEffLimit none = 10 ∧ restEffLimit (some 0) = 10 ∧
    restEffLimit (some v) = min v 50 := by
  refine ⟨?_, ?_, searchLimit_pos params, searchLimit_le params, rfl, rfl, ?_⟩
  · by_cases hr : (rankedOf matcher (searchQuery params) summaries
        (searchLimit params)).isEmpty = true
    · simp only [handleSearch, hq, reduceIte, hr, if_true, responseOf]
      rw [List.length_take]
      exact min_le_left _ _
    · simp only [handleSearch, hq, reduceIte, hr, Bool.false_eq_true, if_false,
        responseOf]
      unfold rankedOf
      rw [List.length_map, List.length_take]
      exact min_le_left _ _
  · by_cases hcfg : cfg = true
    · simp only [handleSearch, hq, reduceIte, hcfg, if_true, responseOf]
      rw [List.length_map, List.length_take]
      exact min_le_left _ _
    · simp only [handleSearch, hq, reduceIte, hcfg, if_false, responseOf]
      simp
  · show min (if v = 0 then (10 : Int) else v) 50 = min v 50
    rw [if_neg hv]

/-- Witness for C2 (amended) at concrete inputs. -/
theorem c2_limit_amended_witness :
    (searchQuery probeParams ≠ "" ∧ ((-5 : Int) ≠ 0)) ∧
    (handleSearch probeMatcher true probeParams (.ok probeSummaries)).results.length ≤
      searchLimit probeParams ∧
    (handleSearch probeMatcher true probeParams (.error "boom")).results.length ≤ 10 ∧
    1 ≤ searchLimit probeParams ∧ searchLimit probeParams ≤ 50 ∧
    restEffLimit none = 10 ∧ restEffLimit (some 0) = 10 ∧
    restEffLimit (some (-5)) = min (-5) 50 :=
  ⟨⟨by decide, by decide⟩,
    c2_limit_amended probeMatcher true probeParams probeSummaries "boom" (-5)
      (by decide) (by decide)⟩

/-! ## C3 — empty-query baseline -/

/-- C3 counterexample: with `limit = 0` and an empty query the handler clamps
the limit to 1 and returns one catalog entry, not
`min(limit, catalogSize) = 0` entries. -/
theorem c3_empty_query_counterexample :
    (handleSearch probeMatcher false { query := "", limit := some 0 }
      (.ok [])).results.length = 1 ∧
    min 0 toolCatalog.length = 0 ∧ (1 : Nat) ≠ 0 :=
  ⟨rfl, rfl, by decide⟩

/-- C3 (amended): for every limit, an empty (or all-whitespace) query makes
the handler return exactly `min(clampedLimit, catalogSize)` Fallback Catalog
entries — where `clampedLimit = max(1, min(limit, 50))` — in catalog order;
the result set is non-empty (the catalog is non-empty), and the backend is
never consulted: the response is invariant under changing the backend
outcome. -/
theorem c3_empty_query_baseline (matcher : String → String → NameMatch) (cfg : Bool)
    (params : SearchParams) (b1 b2 : Except String (List TaskSummary))
    (hq : searchQuery params = "") :
    (handleSearch matcher cfg params b1).results =
      (toolCatalog.map catalogBaselineItem).take (searchLimit params) ∧
    (handleSearch matcher cfg params b1).results.length =
      min (searchLimit params) toolCatalog.length ∧
    (handleSearch matcher cfg params b1).ids =
      (toolCatalog.map (fun t => t.id)).take (searchLimit params) ∧
    (handleSearch matcher cfg params b1).results ≠ [] ∧
    handleSearch matcher cfg params b1 = handleSearch matcher cfg params b2 := by
  have hbase : ∀ b : Except String (List TaskSummary),
      handleSearch matcher cfg params b =
        responseOf ((toolCatalog.take (searchLimit params)).map (fun t => t.id))
          ((toolCatalog.take (searchLimit params)).map catalogBaselineItem) := by
    intro b
    unfold handleSearch
    simp only [hq, if_true, reduceIte]
  refine ⟨?_, ?_, ?_, ?_, ?_⟩
  · rw [hbase b1]; simp only [responseOf]
    exact List.map_take catalogBaselineItem toolCatalog (searchLimit params)
  · rw [hbase b1]; simp only [responseOf]
    rw [List.length_map, List.length_take]
  · rw [hbase b1]; simp only [responseOf]
    exact List.map_take (fun t => t.id) toolCatalog (searchLimit params)
  · rw [hbase b1]; simp only [responseOf]
    intro hcon
    have hlen : ((toolCatalog.take (searchLimit params)).map catalogBaselineItem).length
        = 0 := by rw [hcon]; rfl
    rw [List.length_map, List.length_take] at hlen
    have h1 := searchLimit_pos params
    have h41 : toolCatalog.length = 41 := rfl
    omega
  · rw [hbase b1, hbase b2]

/-- Witness for C3 (amended) at an all-whitespace query and limit 7, under
two different backend outcomes. -/
theorem c3_empty_query_baseline_witness :
    searchQuery { query := "   ", limit := some 7 } = "" ∧
    (handleSearch probeMatcher true { query := "   ", limit := some 7 }
        (.error "boom")).results =
      (toolCatalog.map catalogBaselineItem).take
        (searchLimit { query := "   ", limit := some 7 }) ∧
    handleSearch probeMatcher true { query := "   ", limit := some 7 } (.error "boom") =
      handleSearch probeMatcher true { query := "   ", limit := some 7 }
        (.ok probeSummaries) :=
  ⟨by decide,
    (c3_empty_query_baseline probeMatcher true { query := "   ", limit := some 7 }
      (.error "boom") (.ok probeSummaries) (by decide)).1,
    (c3_empty_query_baseline probeMatcher true { query := "   ", limit := some 7 }
      (.error "boom") (.ok probeSummaries) (by decide)).2.2.2.2⟩

/-! ## C4 — zero-match fallback tier -/

/-- The catalog entries appended on the zero-match fallback path:
textually matching entries, truncated to the space left under the limit
(`Math.max(0, limit - structuredResults.length)` is natural subtraction). -/
def zeroMatchCatalog (cfg : Bool) (query : String) (summaries : List TaskSummary)
    (k : Nat) : List ToolCatalogEntry :=
  if cfg = true then
    (toolCatalog.filter (fun t => toolCatalogMatches t query)).take
      (k - ((recentOf summaries k).map taskResultItem).length)
  else []

/-- Path lemma: with a non-empty query and a successful backend call,
`handleSearch` either serves the zero-match fallback tier or the truncated
ranking. -/
theorem handleSearch_ok_eq (matcher : String → String → NameMatch) (cfg : Bool)
    (params : SearchParams) (summaries : List TaskSummary)
    (hq : searchQuery params ≠ "") :
    handleSearch matcher cfg params (.ok summaries) =
      if (rankedOf matcher (searchQuery params) summaries
          (searchLimit params)).isEmpty = true then
        responseOf
          (((recentOf summaries (searchLimit params)).map (fun s => s.id) ++
            (zeroMatchCatalog cfg (searchQuery params) summaries
              (searchLimit params)).map (fun t => t.id)).take (searchLimit params))
          (((recentOf summaries (searchLimit params)).map taskResultItem ++
            (zeroMatchCatalog cfg (searchQuery params) summaries
              (searchLimit params)).map catalogFallbackItem).take (searchLimit params))
      else
        responseOf
          ((rankedOf matcher (searchQuery params) summaries (searchLimit params)).map
            (fun r => r.t.id))
          ((rankedOf matcher (searchQuery params) summaries (searchLimit params)).map
            (fun r => taskResultItem r.t)) := by
  unfold handleSearch
  rw [if_neg hq]
  rfl

/-- Path lemma: with a non-empty query and a failing backend call,
`handleSearch` serves catalog matches (when the tool-index fallback is
enabled) or an empty response. -/
theorem handleSearch_error_eq (matcher : String → String → NameMatch) (cfg : Bool)
    (params : SearchParams) (e : String) (hq : searchQuery params ≠ "") :
    handleSearch matcher cfg params (.error e) =
      if cfg = true then
        responseOf
          (((toolCatalog.filter (fun t =>
            toolCatalogMatches t (searchQuery params))).take 10).map (fun t => t.id))
          (((toolCatalog.filter (fun t =>
            toolCatalogMatches t (searchQuery params))).take 10).map catalogBaselineItem)
      else responseOf [] [] := by
  unfold handleSearch
  rw [if_neg hq]

theorem recentOf_length (summaries : List TaskSummary) (k : Nat) :
    (recentOf summaries k).length = min k summaries.length := by
  unfold recentOf
  rw [List.length_take, (stableSort_perm recencyLE summaries).length_eq]

/-- C4: for a non-empty query for which no summary matches, the handler
returns the `limit` most-recently-updated backend items (sorted by
descending `date_updated`, dominating every dropped item), followed — when
the tool-index fallback is enabled — by textually matching Fallback Catalog
entries filling the space left under the limit; the result set is non-empty
whenever the backend returned any items. -/
theorem c4_zero_match_fallback (matcher : String → String → NameMatch) (cfg : Bool)
    (params : SearchParams) (summaries : List TaskSummary)
    (hq : searchQuery params ≠ "")
    (hnm : ∀ s ∈ summaries, (matcher s.name (searchQuery params)).isMatch = false)
    (hs : summaries ≠ []) :
    (handleSearch matcher cfg params (.ok summaries)).results =
      (recentOf summaries (searchLimit params)).map taskResultItem ++
        (zeroMatchCatalog cfg (searchQuery params) summaries
          (searchLimit params)).map catalogFallbackItem ∧
    (handleSearch matcher cfg params (.ok summaries)).ids =
      (recentOf summaries (searchLimit params)).map (fun s => s.id) ++
        (zeroMatchCatalog cfg (searchQuery params) summaries
          (searchLimit params)).map (fun t => t.id) ∧
    (∀ t ∈ zeroMatchCatalog cfg (searchQuery params) summaries (searchLimit params),
      toolCatalogMatches t (searchQuery params) = true) ∧
    List.Pairwise (fun a b => dateOf b ≤ dateOf a)
      (recentOf summaries (searchLimit params)) ∧
    List.Perm (stableSort recencyLE summaries) summaries ∧
    (∀ a ∈ recentOf summaries (searchLimit params),
      ∀ b ∈ (stableSort recencyLE summaries).drop (searchLimit params),
        dateOf b ≤ dateOf a) ∧
    (handleSearch matcher cfg params (.ok summaries)).results.length ≤
      searchLimit params ∧
    (handleSearch matcher cfg params (.ok summaries)).results ≠ [] := by
  have hmat : matchedOf matcher (searchQuery params) summaries = [] := by
    unfold matchedOf scoredOf
    rw [List.filter_eq_nil_iff]
    intro a ha
    rcases List.mem_map.mp ha with ⟨s, hsmem, rfl⟩
    simp only [hnm s hsmem, Bool.false_eq_true, not_false_eq_true]
  have hranked : rankedOf matcher (searchQuery params) summaries
      (searchLimit params) = [] := by
    unfold rankedOf
    rw [hmat]
    simp [stableSort]
  have hpath := handleSearch_ok_eq matcher cfg params summaries hq
  rw [hranked] at hpath
  simp only [List.isEmpty_nil, if_true] at hpath
  -- Lengths: the final `.slice(0, limit)` is redundant.
  have hrec : (recentOf summaries (searchLimit params)).length =
      min (searchLimit params) summaries.length := recentOf_length _ _
  have hcat : (zeroMatchCatalog cfg (searchQuery params) summaries
      (searchLimit params)).length ≤
      searchLimit params - (recentOf summaries (searchLimit params)).length := by
    unfold zeroMatchCatalog
    by_cases hcfg : cfg = true
    · rw [if_pos hcfg, List.length_take, List.length_map]
      exact min_le_left _ _
    · rw [if_neg hcfg]
      exact Nat.zero_le _
  have htotal : ((recentOf summaries (searchLimit params)).map taskResultItem ++
      (zeroMatchCatalog cfg (searchQuery params) summaries
        (searchLimit params)).map catalogFallbackItem).length ≤ searchLimit params := by
    rw [List.length_append, List.length_map, List.length_map]
    omega
  have htotal2 : ((recentOf summaries (searchLimit params)).map (fun s => s.id) ++
      (zeroMatchCatalog cfg (searchQuery params) summaries
        (searchLimit params)).map (fun t => t.id)).length ≤ searchLimit params := by
    rw [List.length_append, List.length_map, List.length_map]
    omega
  have hsorted := stableSort_pairwise recencyLE recencyLE_trans recencyLE_total summaries
  have hpairRel : List.Pairwise (fun a b => dateOf b ≤ dateOf a)
      (stableSort recencyLE summaries) := by
    refine hsorted.imp ?_
    intro a b h
    simpa [recencyLE] using h
  refine ⟨?_, ?_, ?_, ?_, stableSort_perm recencyLE summaries, ?_, ?_, ?_⟩
  · rw [hpath, responseOf]
    exact List.take_of_length_le htotal
  · rw [hpath, responseOf]
    exact List.take_of_length_le htotal2
  · intro t ht
    unfold zeroMatchCatalog at ht
    by_cases hcfg : cfg = true
    · rw [if_pos hcfg] at ht
      have ht2 : t ∈ toolCatalog.filter (fun x =>
          toolCatalogMatches x (searchQuery params)) :=
        (List.take_sublist _ _).subset ht
      exact (List.mem_filter.mp ht2).2
    · rw [if_neg hcfg] at ht
      exact absurd ht (List.not_mem_nil t)
  · exact hpairRel.sublist (List.take_sublist _ _)
  · intro a ha b hb
    have hsplit := List.take_append_drop (searchLimit params)
      (stableSort recencyLE summaries)
    have hp : List.Pairwise (fun a b => dateOf b ≤ dateOf a)
        ((stableSort recencyLE summaries).take (searchLimit params) ++
          (stableSort recencyLE summaries).drop (searchLimit params)) := by
      rw [hsplit]; exact hpairRel
    exact (List.pairwise_append.mp hp).2.2 a ha b hb
  · rw [hpath, responseOf]
    rw [List.length_take]
    exact min_le_left _ _
  · rw [hpath, responseOf]
    intro hcon
    have hlen := congrArg List.length hcon
    rw [List.length_take, List.length_append, List.length_map, List.length_map] at hlen
    have h1 := searchLimit_pos params
    have hsl : 0 < summaries.length := List.length_pos.mpr hs
    simp only [List.length_nil] at hlen
    omega

/-- Witness for C4: three summaries, none matching, limit 2, fallback
enabled. -/
theorem c4_zero_match_fallback_witness :
    (searchQuery probeParams ≠ "" ∧
      (∀ s ∈ probeSummaries,
        (noneMatcher s.name (searchQuery probeParams)).isMatch = false) ∧
      probeSummaries ≠ []) ∧
    (handleSearch noneMatcher true probeParams (.ok probeSummaries)).results =
      (recentOf probeSummaries (searchLimit probeParams)).map taskResultItem ++
        (zeroMatchCatalog true (searchQuery probeParams) probeSummaries
          (searchLimit probeParams)).map catalogFallbackItem :=
  ⟨⟨by decide, by decide, by decide⟩,
    (c4_zero_match_fallback noneMatcher true probeParams probeSummaries
      (by decide) (by decide) (by decide)).1⟩

/-! ## C5 — backend error recovery -/

/-- Every modelled path of the REST search endpoint answers HTTP 200 (the
`catch`/500 branch is unreachable because `handleSearch` is total). -/
theorem restSearchGet_status (matcher : String → String → NameMatch) (cfg : Bool)
    (query : String) (rawLimit : Option Int)
    (backend : Except String (List TaskSummary)) :
    (restSearchGet matcher cfg query rawLimit backend).status = 200 := by
  unfold restSearchGet
  split_ifs <;> rfl

/-- C5: when the backend summary call throws, the handler still returns a
normal response whose `results` are exactly the catalog entries textually
matching the query (first 10) when the tool-index fallback is enabled, and
empty otherwise; `ids`/`objectIds` mirror the results, and REST callers
still observe HTTP 200. -/
theorem c5_backend_error_recovery (matcher : String → String → NameMatch)
    (cfg : Bool) (params : SearchParams) (e : String) (rawLimit : Option Int)
    (hq : searchQuery params ≠ "") :
    (handleSearch matcher cfg params (.error e)).results =
      (if cfg = true then
        ((toolCatalog.filter (fun t =>
          toolCatalogMatches t (searchQuery params))).take 10).map catalogBaselineItem
      else []) ∧
    (handleSearch matcher cfg params (.error e)).ids =
      (handleSearch matcher cfg params (.error e)).results.map (fun r => r.id) ∧
    (handleSearch matcher cfg params (.error e)).objectIds =
      (handleSearch matcher cfg params (.error e)).ids ∧
    (restSearchGet matcher cfg params.query rawLimit (.error e)).status = 200 := by
  rw [handleSearch_error_eq matcher cfg params e hq]
  refine ⟨?_, ?_, ?_, restSearchGet_status matcher cfg params.query rawLimit (.error e)⟩
  · by_cases hcfg : cfg = true
    · rw [if_pos hcfg, if_pos hcfg, responseOf]
    · rw [if_neg hcfg, if_neg hcfg, responseOf]
  · by_cases hcfg : cfg = true
    · rw [if_pos hcfg, responseOf]
      simp only [List.map_map]
      rfl
    · rw [if_neg hcfg, responseOf]
      rfl
  · by_cases hcfg : cfg = true
    · rw [if_pos hcfg, responseOf]
    · rw [if_neg hcfg, responseOf]

/-- Witness for C5 with query `"task"`, a throwing backend, and the fallback
enabled. -/
theorem c5_backend_error_recovery_witness :
    searchQuery { query := "task", limit := some 3 } ≠ "" ∧
    (handleSearch probeMatcher true { query := "task", limit := some 3 }
        (.error "ECONNREFUSED")).results =
      (if true = true then
        ((toolCatalog.filter (fun t => toolCatalogMatches t
          (searchQuery { query := "task", limit := some 3 }))).take 10).map
            catalogBaselineItem
      else []) ∧
    (restSearchGet probeMatcher true "task" (some 3) (.error "ECONNREFUSED")).status =
      200 :=
  ⟨by decide,
    (c5_backend_error_recovery probeMatcher true { query := "task", limit := some 3 }
      "ECONNREFUSED" (some 3) (by decide)).1,
    (c5_backend_error_recovery probeMatcher true { query := "task", limit := some 3 }
      "ECONNREFUSED" (some 3) (by decide)).2.2.2⟩

/-! ## C7 — fetch document assembly -/

/-- Text assembly following the specification's wording for comparison with
the code-side `taskDocText`: the description/body, a status line, a
container/location (list) line and the canonical URL, each on its own line
in that order, with every empty component omitted. -/
def specFetchText (t : ClickUpTask) : String :=
  joinLines (([if taskDescriptionOf t ≠ "" then some (taskDescriptionOf t) else none,
    if taskStatusOf t ≠ "" then some ("Status: " ++ taskStatusOf t) else none,
    if taskListOf t ≠ "" then some ("List: " ++ taskListOf t) else none,
    if taskUrlOf t ≠ "" then some (taskUrlOf t) else none] :
      List (Option String)).filterMap id)

/-- C7: for every backend record fetched by id, the handler produces the
document whose text is assembled exactly as the specification describes,
whose metadata carries the status (always) and the location (whenever
non-empty), and whose `raw` field holds the untransformed backend record. -/
theorem c7_fetch_transform (id : String) (backend : String → Except String ClickUpTask)
    (t : ClickUpTask) (hid : strStartsWith id "tool:" = false) (hne : id ≠ "")
    (hb : backend id = .ok t) :
    handleFetch id backend = .doc (taskDoc t) ∧
    (taskDoc t).text = specFetchText t ∧
    (taskDoc t).metadata = [("status", taskStatusOf t)] ++
      (if taskListOf t ≠ "" then [("list", taskListOf t)] else []) ∧
    (taskDoc t).raw = FetchRaw.task t ∧
    (taskDoc t).title = t.name ∧ (taskDoc t).id = t.id ∧
    (taskDoc t).url = taskUrlOf t := by
  refine ⟨?_, ?_, rfl, rfl, rfl, rfl, rfl⟩
  · unfold handleFetch
    rw [if_neg hne]
    simp only [hid, Bool.false_eq_true, if_false]
    rw [hb]
  · show taskDocText t = specFetchText t
    unfold taskDocText specFetchText
    split_ifs <;> rfl

/-- Witness for C7 at a concrete task record with all components present. -/
theorem c7_fetch_transform_witness :
    (strStartsWith "86aaa11" "tool:" = false ∧ ("86aaa11" : String) ≠ "" ∧
      probeBackendOk "86aaa11" = .ok probeTask) ∧
    handleFetch "86aaa11" probeBackendOk = .doc (taskDoc probeTask) ∧
    (taskDoc probeTask).text = specFetchText probeTask :=
  ⟨⟨by decide, by decide, rfl⟩,
    (c7_fetch_transform "86aaa11" probeBackendOk probeTask
      (by decide) (by decide) rfl).1,
    (c7_fetch_transform "86aaa11" probeBackendOk probeTask
      (by decide) (by decide) rfl).2.1⟩

/-! ## C8 — the catalog text-match predicate -/

/-- Transcription of C8's sentence: match when the whole lowercased query is
a substring of the combined text, or when the number of matched significant
(length ≥ 2) query tokens reaches `max(1, floor(0.6 ·
significantTokenCount))` — the threshold denominator being the *significant*
tokens. -/
def claimCatalogMatches (tool : ToolCatalogEntry) (query : String) : Bool :=
  let q := lowerCL query.data
  let toolText := toolTextCL tool
  let queryParts := tokensCL q
  let toolParts := tokensCL toolText
  let significant := queryParts.filter (fun p => decide (2 ≤ p.length))
  let matchCount := (significant.filter (fun qPart =>
    toolParts.any (fun tPart =>
      containsCL tPart qPart || containsCL qPart tPart))).length
  containsCL toolText q || decide (max 1 (3 * significant.length / 5) ≤ matchCount)

/-- C8 counterexample: for the catalog's own `search` entry and the query
`"a b c d e search"`, the predicate described by the claim (denominator =
significant tokens: threshold `max(1, floor(0.6 · 1)) = 1`, one matched
token) declares a match, but the code computes the threshold from *all* six
tokens (`max(1, floor(0.6 · 6)) = 3 > 1`) and declares no match. -/
theorem c8_catalog_match_counterexample :
    claimCatalogMatches searchToolEntry "a b c d e search" = true ∧
    toolCatalogMatches searchToolEntry "a b c d e search" = false ∧
    searchToolEntry ∈ toolCatalog :=
  ⟨rfl, rfl, by decide⟩

/-- C8 (amended): the catalog text-match predicate declares a match exactly
when the whole lowercased query is a substring of the entry's combined text,
or the number of query tokens of length ≥ 2 contained in (or containing)
some candidate token reaches `max(1, floor(0.6 · n))` where `n` counts *all*
query tokens (short tokens included), with the minimum of one matching token
enforced by the outer `max`. -/
theorem c8_catalog_match_amended (tool : ToolCatalogEntry) (query : String) :
    toolCatalogMatches tool query = true ↔
      (containsCL (toolTextCL tool) (lowerCL query.data) = true ∨
        max 1 (3 * (tokensCL (lowerCL query.data)).length / 5) ≤
          List.countP (fun qPart => decide (2 ≤ qPart.length) &&
              (tokensCL (toolTextCL tool)).any (fun tPart =>
                containsCL tPart qPart || containsCL qPart tPart))
            (tokensCL (lowerCL query.data))) := by
  unfold toolCatalogMatches
  rw [List.countP_eq_length_filter]
  by_cases hc : containsCL (toolTextCL tool) (lowerCL query.data) = true
  · simp [hc]
  · simp [hc]

/-! ## C9 — Accept-header normalization: supporting lemmas -/

theorem splitOnP_ne_nil (p : Char → Bool) (l : List Char) : splitOnP p l ≠ [] := by
  cases l with
  | nil => simp [splitOnP]
  | cons c rest =>
    by_cases h : p c = true <;> simp [splitOnP, h]

theorem mem_splitOnP_not (p : Char → Bool) (l : List Char) :
    ∀ q ∈ splitOnP p l, ∀ c ∈ q, p c = false := by
  induction l with
  | nil =>
    intro q hq c hc
    simp only [splitOnP, List.mem_singleton] at hq
    subst hq
    exact absurd hc (List.not_mem_nil c)
  | cons a rest ih =>
    intro q hq c hc
    by_cases ha : p a = true
    · rw [splitOnP, if_pos ha] at hq
      rcases List.mem_cons.mp hq with rfl | hq
      · exact absurd hc (List.not_mem_nil c)
      · exact ih q hq c hc
    · obtain ⟨h0, ts, hsplit⟩ : ∃ h0 ts, splitOnP p rest = h0 :: ts := by
        cases hs : splitOnP p rest with
        | nil => exact absurd hs (splitOnP_ne_nil p rest)
        | cons h0 ts => exact ⟨h0, ts, rfl⟩
      rw [splitOnP, if_neg ha, hsplit] at hq
      simp only [List.headD_cons, List.tail_cons] at hq
      rcases List.mem_cons.mp hq with rfl | hq
      · rcases List.mem_cons.mp hc with rfl | hc
        · simpa using ha
        · exact ih h0 (hsplit ▸ List.mem_cons_self h0 ts) c hc
      · exact ih q (hsplit ▸ List.mem_cons_of_mem h0 hq) c hc

theorem splitOnP_append_sep (p : Char → Bool) (q t : List Char) (sep : Char)
    (hq : ∀ c ∈ q, p c = false) (hsep : p sep = true) :
    splitOnP p (q ++ sep :: t) = q :: splitOnP p t := by
  induction q with
  | nil => simp [splitOnP, hsep]
  | cons a q' ih =>
    have ha : p a = false := hq a (List.mem_cons_self a q')
    have ih' := ih (fun c hc => hq c (List.mem_cons_of_mem a hc))
    simp only [List.cons_append, splitOnP, ha, Bool.false_eq_true, if_false,
      List.append_eq, ih', List.headD_cons, List.tail_cons]

theorem splitOnP_no_sep (p : Char → Bool) (q : List Char)
    (hq : ∀ c ∈ q, p c = false) : splitOnP p q = [q] := by
  induction q with
  | nil => rfl
  | cons a q' ih =>
    have ha : p a = false := hq a (List.mem_cons_self a q')
    have ih' := ih (fun c hc => hq c (List.mem_cons_of_mem a hc))
    simp [splitOnP, ha, ih']

theorem dropWhile_eq_self_of_head? {p : Char → Bool} {l : List Char}
    (h : ∀ a, l.head? = some a → p a = false) : List.dropWhile p l = l := by
  cases l with
  | nil => rfl
  | cons a t =>
    have := h a rfl
    simp [List.dropWhile, this]

theorem trimCL_eq_self {l : List Char}
    (h1 : ∀ a, l.head? = some a → Char.isWhitespace a = false)
    (h2 : ∀ a, l.getLast? = some a → Char.isWhitespace a = false) :
    trimCL l = l := by
  unfold trimCL
  rw [dropWhile_eq_self_of_head? h1]
  rw [dropWhile_eq_self_of_head? (fun a ha => h2 a (by rwa [List.head?_reverse] at ha))]
  exact List.reverse_reverse l

theorem head?_dropWhile_false (p : Char → Bool) (l : List Char) :
    ∀ a, (List.dropWhile p l).head? = some a → p a = false := by
  intro a ha
  have h := List.head?_dropWhile_not p l
  rw [ha] at h
  exact h

theorem getLast?_suffix {l m : List Char} (h : l <:+ m) (hne : l ≠ []) :
    l.getLast? = m.getLast? := by
  obtain ⟨pre, rfl⟩ := h
  rw [List.getLast?_append]
  obtain ⟨a, ha⟩ := Option.isSome_iff_exists.mp (List.getLast?_isSome.mpr hne)
  rw [ha]
  rfl

theorem trimCL_head_not (l : List Char) :
    ∀ a, (trimCL l).head? = some a → Char.isWhitespace a = false := by
  intro a ha
  unfold trimCL at ha
  rw [List.head?_reverse] at ha
  set Y := List.dropWhile Char.isWhitespace
    ((List.dropWhile Char.isWhitespace l).reverse) with hY
  have hYne : Y ≠ [] := by
    intro hcon
    rw [hcon] at ha
    exact Option.noConfusion ha
  have hsuffix : Y <:+ (List.dropWhile Char.isWhitespace l).reverse :=
    List.dropWhile_suffix _
  rw [getLast?_suffix hsuffix hYne, List.getLast?_reverse] at ha
  exact head?_dropWhile_false _ _ a ha

theorem trimCL_last_not (l : List Char) :
    ∀ a, (trimCL l).getLast? = some a → Char.isWhitespace a = false := by
  intro a ha
  unfold trimCL at ha
  rw [List.getLast?_reverse] at ha
  exact head?_dropWhile_false _ _ a ha

theorem trimCL_idem (l : List Char) : trimCL (trimCL l) = trimCL l :=
  trimCL_eq_self (trimCL_head_not l) (trimCL_last_not l)

theorem trimCL_cons_space (l : List Char) : trimCL (' ' :: l) = trimCL l := by
  unfold trimCL
  rw [show List.dropWhile Char.isWhitespace (' ' :: l) =
    List.dropWhile Char.isWhitespace l from by simp [List.dropWhile]]

theorem mem_trimCL {a : Char} {l : List Char} (h : a ∈ trimCL l) : a ∈ l := by
  unfold trimCL at h
  rw [List.mem_reverse] at h
  have h2 := (List.dropWhile_sublist _).subset h
  rw [List.mem_reverse] at h2
  exact (List.dropWhile_sublist _).subset h2

theorem mem_acceptParts {q : List Char} {s : List Char} (h : q ∈ acceptParts s) :
    q ≠ [] ∧ trimCL q = q ∧ ∀ c ∈ q, (c == ',') = false := by
  unfold acceptParts at h
  have hne : ¬ q.isEmpty = true := by
    have := List.of_mem_filter h
    simpa using this
  have hq : q ∈ (splitOnP (fun c => c == ',') s).map trimCL :=
    (List.mem_filter.mp h).1
  rcases List.mem_map.mp hq with ⟨q', hq', rfl⟩
  refine ⟨by simpa [List.isEmpty_iff] using hne, trimCL_idem q', ?_⟩
  intro c hc
  exact mem_splitOnP_not _ s q' hq' c (mem_trimCL hc)

theorem acceptParts_cons_space (x : List Char) :
    acceptParts (' ' :: x) = acceptParts x := by
  obtain ⟨h0, ts, hsplit⟩ : ∃ h0 ts, splitOnP (fun c => c == ',') x = h0 :: ts := by
    cases hs : splitOnP (fun c => c == ',') x with
    | nil => exact absurd hs (splitOnP_ne_nil _ x)
    | cons h0 ts => exact ⟨h0, ts, rfl⟩
  unfold acceptParts
  rw [show splitOnP (fun c => c == ',') (' ' :: x) =
      (' ' :: h0) :: ts from by simp [splitOnP, hsplit]]
  rw [hsplit]
  simp only [List.map_cons, trimCL_cons_space]

theorem acceptParts_join (ps : List (List Char)) (hne : ps ≠ [])
    (hall : ∀ q ∈ ps, q ≠ [] ∧ trimCL q = q ∧ ∀ c ∈ q, (c == ',') = false) :
    acceptParts (joinCommaSpace ps) = ps := by
  induction ps with
  | nil => exact absurd rfl hne
  | cons q rest ih =>
    rcases hall q (List.mem_cons_self q rest) with ⟨hqne, hqtrim, hqcomma⟩
    cases rest with
    | nil =>
      show acceptParts q = [q]
      unfold acceptParts
      rw [splitOnP_no_sep _ q hqcomma]
      simp [hqtrim, List.isEmpty_iff, hqne]
    | cons r t =>
      show acceptParts (q ++ ',' :: ' ' :: joinCommaSpace (r :: t)) = q :: r :: t
      unfold acceptParts
      rw [splitOnP_append_sep _ q (' ' :: joinCommaSpace (r :: t)) ',' hqcomma rfl]
      rw [List.map_cons, hqtrim, List.filter_cons]
      rw [show (!q.isEmpty) = true from by simpa [List.isEmpty_iff] using hqne]
      have ihr := ih (by simp)
        (fun x hx => hall x (List.mem_cons_of_mem q hx))
      have hstep : acceptParts (' ' :: joinCommaSpace (r :: t)) = r :: t := by
        rw [acceptParts_cons_space, ihr]
      unfold acceptParts at hstep
      rw [if_pos rfl, hstep]

theorem mem_dedupFirstAux {x : List Char} :
    ∀ (l seen : List (List Char)), x ∈ dedupFirstAux seen l ↔ x ∈ l ∧ x ∉ seen := by
  intro l
  induction l with
  | nil => intro seen; simp [dedupFirstAux]
  | cons a rest ih =>
    intro seen
    by_cases ha : a ∈ seen
    · rw [dedupFirstAux, if_pos ha, ih]
      constructor
      · rintro ⟨hx, hs⟩
        exact ⟨List.mem_cons_of_mem a hx, hs⟩
      · rintro ⟨hx, hs⟩
        rcases List.mem_cons.mp hx with rfl | hx
        · exact absurd ha hs
        · exact ⟨hx, hs⟩
    · rw [dedupFirstAux, if_neg ha]
      constructor
      · intro hx
        rcases List.mem_cons.mp hx with rfl | hx
        · exact ⟨List.mem_cons_self x rest, ha⟩
        · rcases (ih (a :: seen)).mp hx with ⟨h1, h2⟩
          exact ⟨List.mem_cons_of_mem a h1,
            fun hs => h2 (List.mem_cons_of_mem a hs)⟩
      · rintro ⟨hx, hs⟩
        rcases List.mem_cons.mp hx with rfl | hx
        · exact List.mem_cons_self x _
        · by_cases hxa : x = a
          · subst hxa; exact List.mem_cons_self x _
          · exact List.mem_cons_of_mem a ((ih (a :: seen)).mpr
              ⟨hx, fun hmem => by
                rcases List.mem_cons.mp hmem with h | h
                · exact hxa h
                · exact hs h⟩)

theorem mem_dedupFirst {x : List Char} {l : List (List Char)} :
    x ∈ dedupFirst l ↔ x ∈ l := by
  unfold dedupFirst
  rw [mem_dedupFirstAux]
  simp

theorem nodup_dedupFirstAux :
    ∀ (l seen : List (List Char)), (dedupFirstAux seen l).Nodup := by
  intro l
  induction l with
  | nil => intro seen; simp [dedupFirstAux]
  | cons a rest ih =>
    intro seen
    by_cases ha : a ∈ seen
    · rw [dedupFirstAux, if_pos ha]; exact ih seen
    · rw [dedupFirstAux, if_neg ha]
      refine List.Pairwise.cons ?_ (ih (a :: seen))
      intro b hb hab
      rcases (mem_dedupFirstAux rest (a :: seen)).mp hb with ⟨_, hbs⟩
      exact hbs (hab ▸ List.mem_cons_self a seen)

theorem nodup_dedupFirst (l : List (List Char)) : (dedupFirst l).Nodup :=
  nodup_dedupFirstAux l []

theorem dedupFirst_ne_nil {l : List (List Char)} (h : l ≠ []) :
    dedupFirst l ≠ [] := by
  cases l with
  | nil => exact absurd rfl h
  | cons a t =>
    unfold dedupFirst dedupFirstAux
    rw [if_neg (List.not_mem_nil a)]
    exact List.cons_ne_nil a _

theorem hasPrefixCL_refl (l : List Char) : hasPrefixCL l l = true := by
  induction l with
  | nil => rfl
  | cons a t ih => simp [hasPrefixCL, ih]

theorem containsCL_refl (l : List Char) : containsCL l l = true := by
  cases l with
  | nil => rfl
  | cons a t => simp [containsCL, hasPrefixCL_refl]

theorem normalizeAccept_noop (x : List Char)
    (hj : (acceptParts x).any (fun p => containsCL p acceptJsonTok) = true)
    (hs : (acceptParts x).any (fun p => containsCL p acceptSseTok) = true) :
    normalizeAccept x = x := by
  simp only [normalizeAccept]
  rw [if_pos (by rw [hj, hs]; rfl)]

/-- C9: the Accept-header normalization for `/mcp` (i) ensures the
normalized header has a token containing `application/json` and one
containing `text/event-stream`, (ii) never duplicates an existing
accept-type token — it either leaves the header untouched or produces a
duplicate-free token list — and (iii) is idempotent: applying it to its own
output changes nothing. -/
theorem c9_accept_normalization (s : List Char) :
    (acceptParts (normalizeAccept s)).any (fun p => containsCL p acceptJsonTok) = true ∧
    (acceptParts (normalizeAccept s)).any (fun p => containsCL p acceptSseTok) = true ∧
    (normalizeAccept s = s ∨ (acceptParts (normalizeAccept s)).Nodup) ∧
    normalizeAccept (normalizeAccept s) = normalizeAccept s := by
  by_cases hboth : ((acceptParts s).any (fun p => containsCL p acceptJsonTok) &&
      (acceptParts s).any (fun p => containsCL p acceptSseTok)) = true
  · obtain ⟨hj, hsse⟩ := Bool.and_eq_true _ _ ▸ hboth
    have hid : normalizeAccept s = s := normalizeAccept_noop s hj hsse
    refine ⟨?_, ?_, Or.inl hid, ?_⟩
    · rw [hid]; exact hj
    · rw [hid]; exact hsse
    · rw [hid, hid]
  · have hnorm : normalizeAccept s =
        joinCommaSpace (dedupFirst ((acceptParts s ++
          (if (acceptParts s).any (fun p => containsCL p acceptJsonTok) = true then []
           else [acceptJsonTok])) ++
          (if (acceptParts s).any (fun p => containsCL p acceptSseTok) = true then []
           else [acceptSseTok]))) := by
      simp only [normalizeAccept]
      rw [if_neg hboth]
    have hallmem : ∀ q ∈ ((acceptParts s ++
        (if (acceptParts s).any (fun p => containsCL p acceptJsonTok) = true then []
         else [acceptJsonTok])) ++
        (if (acceptParts s).any (fun p => containsCL p acceptSseTok) = true then []
         else [acceptSseTok])),
        q ≠ [] ∧ trimCL q = q ∧ ∀ c ∈ q, (c == ',') = false := by
      intro q hq
      rcases List.mem_append.mp hq with hq | hq
      · rcases List.mem_append.mp hq with hq | hq
        · exact mem_acceptParts hq
        · by_cases hc : (acceptParts s).any (fun p => containsCL p acceptJsonTok) = true
          · rw [if_pos hc] at hq
            exact absurd hq (List.not_mem_nil q)
          · rw [if_neg hc, List.mem_singleton] at hq
            subst hq
            exact ⟨by decide, by decide, by decide⟩
      · by_cases hc : (acceptParts s).any (fun p => containsCL p acceptSseTok) = true
        · rw [if_pos hc] at hq
          exact absurd hq (List.not_mem_nil q)
        · rw [if_neg hc, List.mem_singleton] at hq
          subst hq
          exact ⟨by decide, by decide, by decide⟩
    have hne2 : ((acceptParts s ++
        (if (acceptParts s).any (fun p => containsCL p acceptJsonTok) = true then []
         else [acceptJsonTok])) ++
        (if (acceptParts s).any (fun p => containsCL p acceptSseTok) = true then []
         else [acceptSseTok])) ≠ [] := by
      intro hcon
      have hlen := congrArg List.length hcon
      rw [List.length_append, List.length_append] at hlen
      simp only [List.length_nil] at hlen
      by_cases hj : (acceptParts s).any (fun p => containsCL p acceptJsonTok) = true
      · by_cases hsse : (acceptParts s).any (fun p => containsCL p acceptSseTok) = true
        · exact hboth (by rw [hj, hsse]; rfl)
        · rw [if_neg hsse] at hlen
          simp at hlen
      · rw [if_neg hj] at hlen
        simp at hlen
    have hround : acceptParts (normalizeAccept s) = dedupFirst ((acceptParts s ++
        (if (acceptParts s).any (fun p => containsCL p acceptJsonTok) = true then []
         else [acceptJsonTok])) ++
        (if (acceptParts s).any (fun p => containsCL p acceptSseTok) = true then []
         else [acceptSseTok])) := by
      rw [hnorm]
      exact acceptParts_join _ (dedupFirst_ne_nil hne2)
        (fun q hq => hallmem q (mem_dedupFirst.mp hq))
    have hjson_mem : ∃ q ∈ dedupFirst ((acceptParts s ++
        (if (acceptParts s).any (fun p => containsCL p acceptJsonTok) = true then []
         else [acceptJsonTok])) ++
        (if (acceptParts s).any (fun p => containsCL p acceptSseTok) = true then []
         else [acceptSseTok])), containsCL q acceptJsonTok = true := by
      by_cases hj : (acceptParts s).any (fun p => containsCL p acceptJsonTok) = true
      · rcases List.any_eq_true.mp hj with ⟨q, hqmem, hqc⟩
        exact ⟨q, mem_dedupFirst.mpr (List.mem_append.mpr (Or.inl
          (List.mem_append.mpr (Or.inl hqmem)))), hqc⟩
      · refine ⟨acceptJsonTok, ?_, containsCL_refl _⟩
        apply mem_dedupFirst.mpr
        apply List.mem_append.mpr
        left
        apply List.mem_append.mpr
        right
        rw [if_neg hj]
        exact List.mem_singleton.mpr rfl
    have hsse_mem : ∃ q ∈ dedupFirst ((acceptParts s ++
        (if (acceptParts s).any (fun p => containsCL p acceptJsonTok) = true then []
         else [acceptJsonTok])) ++
        (if (acceptParts s).any (fun p => containsCL p acceptSseTok) = true then []
         else [acceptSseTok])), containsCL q acceptSseTok = true := by
      by_cases hsse : (acceptParts s).any (fun p => containsCL p acceptSseTok) = true
      · rcases List.any_eq_true.mp hsse with ⟨q, hqmem, hqc⟩
        exact ⟨q, mem_dedupFirst.mpr (List.mem_append.mpr (Or.inl
          (List.mem_append.mpr (Or.inl hqmem)))), hqc⟩
      · refine ⟨acceptSseTok, ?_, containsCL_refl _⟩
        apply mem_dedupFirst.mpr
        apply List.mem_append.mpr
        right
        rw [if_neg hsse]
        exact List.mem_singleton.mpr rfl
    have hJ2 : (acceptParts (normalizeAccept s)).any
        (fun p => containsCL p acceptJsonTok) = true := by
      rw [hround]
      exact List.any_eq_true.mpr hjson_mem
    have hS2 : (acceptParts (normalizeAccept s)).any
        (fun p => containsCL p acceptSseTok) = true := by
      rw [hround]
      exact List.any_eq_true.mpr hsse_mem
    refine ⟨hJ2, hS2, Or.inr ?_, ?_⟩
    · rw [hround]
      exact nodup_dedupFirst _
    · exact normalizeAccept_noop (normalizeAccept s) hJ2 hS2

end ClickupMcp
